import Mathlib

/-!
Shallow embedding of the multiplayer tic-tac-toe backend
(`tictactoe-server`: packages `models`, `game`, `handlers`).

Conventions of the embedding:
* Go strings are Lean `String`s; the empty string `""` is Go's zero value.
* Go `int` is `Int`; Go integer division truncates toward zero (`Int.tdiv`),
  and `^` on Go integers is bitwise XOR (`Int.xor`).
* The `float64` arithmetic of `updateRating` is embedded over `ℚ` (exact
  real arithmetic); Go's `int(...)` conversion of a float truncates toward
  zero (`goTrunc`).  Division by zero follows Lean's `x / 0 = 0` convention.
* UUID generation and timestamps are environment effects: fresh identifiers
  are passed in as explicit arguments, `time.Time` fields are omitted
  (no claim mentions them).
* The mutex-guarded maps of `GameServer` are association lists; pointer
  mutation becomes explicit state passing (a handler returns the new state).
-/

/-- `models.Player` (src/unnamed/part_000). `LastSeen` omitted (real time). -/
structure Player where
  id : String
  name : String
  symbol : String
  wins : Int
  losses : Int
  draws : Int
  rating : Int
deriving DecidableEq, Repr

/-- A Go `[9]string` board: position `0`–`8` to cell value, `""` = empty. -/
def Board : Type := Fin 9 → String

instance : DecidableEq Board := fun b c =>
  decidable_of_iff (∀ i, b i = c i) funext_iff.symm

/-- `models.Game` (src/unnamed/part_000). `StartTime`/`EndTime` omitted. -/
structure Game where
  id : String
  board : Board
  playerX : Option Player
  playerO : Option Player
  currentTurn : String
  status : String
  winner : String
deriving DecidableEq

/-- Go constant `models.STATUS_WAITING`. -/
def STATUS_WAITING : String := "waiting"

/-- Go constant `models.STATUS_PLAYING`. -/
def STATUS_PLAYING : String := "playing"

/-- Go constant `models.STATUS_FINISHED`. -/
def STATUS_FINISHED : String := "finished"

/-- `models.NewGame`: fresh board, first turn `"X"`, status `waiting`;
the fresh UUID is passed in as `gid`. -/
def NewGame (gid : String) : Game :=
  { id := gid
    board := fun _ => ""
    playerX := none
    playerO := none
    currentTurn := "X"
    status := STATUS_WAITING
    winner := "" }

/-- `models.NewPlayer`: fresh player with starting rating 1000;
the fresh UUID is passed in as `pid`. -/
def NewPlayer (pid name : String) : Player :=
  { id := pid, name := name, symbol := "", wins := 0, losses := 0, draws := 0
    rating := 1000 }

/-- The distinct validation failures of `game.IsValidMove`, one per
`errors.New` site in src/game/engine.go. -/
inductive MoveError where
  | NotPlaying
  | OutOfRange
  | CellOccupied
  | PlayerNotInGame
  | NotYourTurn
deriving DecidableEq, Repr

/-- The reason string `errors.New` attaches to each failure. -/
def errorText : MoveError → String
  | .NotPlaying => "game is not in playing state"
  | .OutOfRange => "invalid position"
  | .CellOccupied => "position already occupied"
  | .PlayerNotInGame => "player not in this game"
  | .NotYourTurn => "not your turn"

/-- Read `board[position]`.  Every read in the source is dominated by the
`position < 0 || position > 8` range check, so the out-of-range default is
never observed. -/
def getCell (b : Board) (position : Int) : String :=
  if h : 0 ≤ position ∧ position < 9 then b ⟨position.toNat, by omega⟩ else ""

/-- Write `board[position] = s`; same range-check remark as `getCell`. -/
def setCell (b : Board) (position : Int) (s : String) : Board :=
  if h : 0 ≤ position ∧ position < 9 then
    Function.update b ⟨position.toNat, by omega⟩ s
  else b

/-- The Go test `p != nil && p.ID == playerID`. -/
def playerIs (p : Option Player) (playerID : String) : Bool :=
  match p with
  | some pl => pl.id == playerID
  | none => false

/-- `game.IsValidMove` (src/game/engine.go:17): check order is status,
position range, occupancy, game membership, turn.  A pure check — it
returns only the verdict, never a modified game. -/
def IsValidMove (g : Game) (playerID : String) (position : Int) :
    Option MoveError :=
  if g.status ≠ STATUS_PLAYING then some .NotPlaying
  else if position < 0 ∨ 8 < position then some .OutOfRange
  else if getCell g.board position ≠ "" then some .CellOccupied
  else if playerIs g.playerX playerID then
    (if g.currentTurn ≠ "X" then some .NotYourTurn else none)
  else if playerIs g.playerO playerID then
    (if g.currentTurn ≠ "O" then some .NotYourTurn else none)
  else some .PlayerNotInGame

/-- The eight winning lines of `game.CheckWinner`, in source order:
three rows, three columns, two diagonals. -/
def winningCombos : List (Fin 9 × Fin 9 × Fin 9) :=
  [(0, 1, 2), (3, 4, 5), (6, 7, 8),
   (0, 3, 6), (1, 4, 7), (2, 5, 8),
   (0, 4, 8), (2, 4, 6)]

/-- The scan loop of `game.CheckWinner`: first line whose three cells are
equal and non-empty decides; `""` if no line matches. -/
def scanCombos (b : Board) : List (Fin 9 × Fin 9 × Fin 9) → String
  | [] => ""
  | (i, j, k) :: rest =>
    if b i ≠ "" ∧ b i = b j ∧ b j = b k then b i else scanCombos b rest

/-- `game.CheckWinner` (src/game/engine.go:79). -/
def CheckWinner (b : Board) : String := scanCombos b winningCombos

/-- `game.IsBoardFull` (src/game/engine.go:99): every cell non-empty. -/
def IsBoardFull (b : Board) : Prop := ∀ i : Fin 9, b i ≠ ""

instance (b : Board) : Decidable (IsBoardFull b) :=
  inferInstanceAs (Decidable (∀ i : Fin 9, b i ≠ ""))

/-- Go's `int(f)` conversion on a float: truncation toward zero,
embedded on `ℚ`. -/
def goTrunc (q : ℚ) : Int := if q < 0 then -⌊-q⌋ else ⌊q⌋

/-- The two rating deltas of `game.updateRating` (src/game/engine.go:131).
The source line

  `expectedX := 1.0 / (1.0 + float64(10.0^((playerO.Rating-playerX.Rating)/400.0)))`

parses in Go as: `(ratingO - ratingX) / 400` in *integer* division
(`Int.tdiv`), then `10 ^ that` as *bitwise XOR* on `int` (`Int.xor` — Go's
`^` is XOR, not exponentiation), then the float conversion.  The deltas are
`int(K * (score - expectedX))` and `int(K * ((1-score) - (1-expectedX)))`
with `K = 32`, where `int(...)` truncates toward zero.  Caveat: when the
denominator `1 + (10 XOR d)` is zero (see `ratingDenominator`) the Go
code divides by zero (`+Inf`, then implementation-defined conversions);
this exact embedding follows Lean's `1/0 = 0` there and is only claimed
faithful away from that window. -/
def updateRatingChanges (ratingX ratingO : Int) (score : ℚ) : Int × Int :=
  let expectedX : ℚ :=
    1 / (1 + ((Int.xor 10 (Int.tdiv (ratingO - ratingX) 400) : Int) : ℚ))
  (goTrunc (32 * (score - expectedX)),
   goTrunc (32 * ((1 - score) - (1 - expectedX))))

/-- The final clamp of `game.updateRating`: a rating never goes below 0. -/
def clampRating (r : Int) : Int := if r < 0 then 0 else r

/-- `game.updateRating` (src/game/engine.go:131): apply the deltas to both
players, then floor each rating at 0. -/
def updateRating (pX pO : Player) (score : ℚ) : Player × Player :=
  let c := updateRatingChanges pX.rating pO.rating score
  ({ pX with rating := clampRating (pX.rating + c.1) },
   { pO with rating := clampRating (pO.rating + c.2) })

/-- `game.updatePlayerStats` (src/game/engine.go:109): on a decided game
bump win/loss/draw counters, then settle ratings with actual score 1.0
(X win), 0.0 (O win) or 0.5 (draw); no-op when either player is absent or
the winner value is unrecognized. -/
def updatePlayerStats (g : Game) : Game :=
  match g.playerX, g.playerO with
  | some pX, some pO =>
    if g.winner = "X" then
      let r := updateRating { pX with wins := pX.wins + 1 }
        { pO with losses := pO.losses + 1 } 1
      { g with playerX := some r.1, playerO := some r.2 }
    else if g.winner = "O" then
      let r := updateRating { pX with losses := pX.losses + 1 }
        { pO with wins := pO.wins + 1 } 0
      { g with playerX := some r.1, playerO := some r.2 }
    else if g.winner = "draw" then
      let r := updateRating { pX with draws := pX.draws + 1 }
        { pO with draws := pO.draws + 1 } (1 / 2)
      { g with playerX := some r.1, playerO := some r.2 }
    else g
  | _, _ => g

/-- `game.MakeMove` (src/game/engine.go:48): validate, then write the
current-turn symbol, then either finish the game (winning line, or full
board ⇒ draw) and settle stats, or flip the turn.  Returns the Go error
alongside the (possibly updated) game. -/
def MakeMove (g : Game) (playerID : String) (position : Int) :
    Option MoveError × Game :=
  match IsValidMove g playerID position with
  | some e => (some e, g)
  | none =>
    let b := setCell g.board position g.currentTurn
    let winner := CheckWinner b
    if winner ≠ "" then
      (none, updatePlayerStats
        { g with board := b, status := STATUS_FINISHED, winner := winner })
    else if IsBoardFull b then
      (none, updatePlayerStats
        { g with board := b, status := STATUS_FINISHED, winner := "draw" })
    else
      (none, { g with board := b
                      currentTurn := if g.currentTurn = "X" then "O" else "X" })

/-- The termination evaluation embedded in `MakeMove`: winner from
`CheckWinner` if any line matches, else `"draw"` on a full board, else
`""` (game goes on). -/
def evaluateTermination (b : Board) : String :=
  if CheckWinner b ≠ "" then CheckWinner b
  else if IsBoardFull b then "draw"
  else ""

/-- Inbound `make_move` payload as `handleMakeMove` reads it: only
`"gameId"` and `"position"` keys are consulted; a client-supplied
`"playerId"` key is carried but never read by the handler. -/
structure MoveData where
  gameId : Option String
  position : Option Int
  playerId : Option String
deriving DecidableEq

/-- `models.GameMessage` (src/unnamed/part_000): type tag, payload, and
the addressing identifiers. -/
structure GameMessage where
  type : String
  data : MoveData
  gameId : Option String
  playerID : String
deriving DecidableEq

/-- Go constant `models.MSG_JOIN_QUEUE`. -/
def MSG_JOIN_QUEUE : String := "join_queue"

/-- Go constant `models.MSG_LEAVE_QUEUE`. -/
def MSG_LEAVE_QUEUE : String := "leave_queue"

/-- Go constant `models.MSG_MAKE_MOVE`. -/
def MSG_MAKE_MOVE : String := "make_move"

/-- Go constant `models.MSG_LEADERBOARD`. -/
def MSG_LEADERBOARD : String := "leaderboard"

/-- The mutable state of `handlers.GameServer` (README source): the
game and player maps as association lists, and the matchmaking queue of
player identifiers in join order.  Network-only fields (`clients`,
`upgrader`, `broadcast`) carry no game state and are omitted. -/
structure GameServer where
  games : List (String × Game)
  players : List (String × Player)
  matchmaking : List String
deriving DecidableEq

/-- Replace the entry under key `pid` (Go map/pointer update). -/
def updatePlayers (ps : List (String × Player)) (pid : String) (p : Player) :
    List (String × Player) :=
  ps.map (fun kv => if kv.1 = pid then (kv.1, p) else kv)

/-- Store a game under its identifier (Go `gs.games[id] = g`, and the
in-place pointer mutation `MakeMove` performs on a stored game). -/
def updateGames (gsMap : List (String × Game)) (gid : String) (g : Game) :
    List (String × Game) :=
  gsMap.map (fun kv => if kv.1 = gid then (kv.1, g) else kv)

/-- The game `createMatch` builds: `models.NewGame` then both players
attached, symbols assigned (first dequeued = X, second = O), status
`playing`. -/
def matchGame (gid : String) (p1 p2 : Player) : Game :=
  { NewGame gid with
      playerX := some { p1 with symbol := "X" }
      playerO := some { p2 with symbol := "O" }
      status := STATUS_PLAYING }

/-- `handlers.createMatch` (README source): take the two earliest-queued
identifiers off the list, look both up, and — only if both resolve —
store a fresh `playing` game between them.  If either lookup fails the
attempt is abandoned (the two identifiers stay dequeued).  The fresh game
UUID is passed in as `gid`. -/
def createMatch (gs : GameServer) (gid : String) : GameServer :=
  match gs.matchmaking with
  | player1ID :: player2ID :: rest =>
    match gs.players.lookup player1ID, gs.players.lookup player2ID with
    | some p1, some p2 =>
      let p1X := { p1 with symbol := "X" }
      let p2O := { p2 with symbol := "O" }
      { games := (gid, matchGame gid p1 p2) :: gs.games
        players := updatePlayers (updatePlayers gs.players player1ID p1X)
          player2ID p2O
        matchmaking := rest }
    | _, _ => { gs with matchmaking := rest }
  | _ => gs

/-- `handlers.handleJoinQueue` (README source): no-op when the player's
identifier is already queued; otherwise append it, and when the queue
then holds ≥ 2 entries, immediately attempt a match. -/
def handleJoinQueue (gs : GameServer) (player : Player) (gid : String) :
    GameServer :=
  if player.id ∈ gs.matchmaking then gs
  else
    let gs1 : GameServer :=
      { gs with matchmaking := gs.matchmaking ++ [player.id] }
    if 2 ≤ gs1.matchmaking.length then createMatch gs1 gid else gs1

/-- The removal loop of `handleLeaveQueue`/`handleDisconnect`: drop the
first occurrence of an identifier, no-op when absent. -/
def removeFirst : List String → String → List String
  | [], _ => []
  | a :: t, x => if a = x then t else a :: removeFirst t x

/-- `handlers.handleLeaveQueue` (README source). -/
def handleLeaveQueue (gs : GameServer) (player : Player) : GameServer :=
  { gs with matchmaking := removeFirst gs.matchmaking player.id }

/-- `handlers.handleMakeMove` (README source): read only `gameId` and
`position` from the payload (malformed payloads are dropped silently),
look the game up ("Game not found" sends an error, no state change), and
run `MakeMove` under the envelope's `PlayerID`; the game object is
updated in place (here: written back into the map). -/
def handleMakeMove (gs : GameServer) (msg : GameMessage) : GameServer :=
  match msg.data.gameId with
  | none => gs
  | some gid =>
    match msg.data.position with
    | none => gs
    | some pos =>
      match gs.games.lookup gid with
      | none => gs
      | some g =>
        let r := MakeMove g msg.playerID pos
        { gs with games := updateGames gs.games gid r.2 }

/-- `handlers.handleMessage` (README source): overwrite the envelope's
`PlayerID` with the identifier of the player registered for the receiving
connection, then dispatch on the type tag; unrecognized tags are ignored,
and a leaderboard request changes no state.  `gid` is the fresh UUID a
join-triggered match would use. -/
def handleMessage (gs : GameServer) (connPlayer : Player)
    (msg : GameMessage) (gid : String) : GameServer :=
  let m := { msg with playerID := connPlayer.id }
  if m.type = MSG_JOIN_QUEUE then handleJoinQueue gs connPlayer gid
  else if m.type = MSG_LEAVE_QUEUE then handleLeaveQueue gs connPlayer
  else if m.type = MSG_MAKE_MOVE then handleMakeMove gs m
  else gs

/-- Games reachable in the server: a freshly created match
(`createMatch`) followed by any sequence of `MakeMove` calls (each call
either applies a move or rejects it and returns the game unchanged). -/
inductive ReachableGame : Game → Prop
  | init (gid : String) (p1 p2 : Player) : ReachableGame (matchGame gid p1 p2)
  | step (g : Game) (playerID : String) (position : Int) :
      ReachableGame g → ReachableGame (MakeMove g playerID position).2

/-- Number of cells holding symbol `s` (counting argument for the
"no winner before 5 moves" property). -/
def countSym (b : Board) (s : String) : Nat :=
  (Finset.univ.filter (fun i : Fin 9 => b i = s)).card

/-- Number of non-empty cells = number of moves played so far. -/
def movesPlayed (b : Board) : Nat :=
  (Finset.univ.filter (fun i : Fin 9 => b i ≠ "")).card

/-- The state invariant of a reachable game: cells hold only `""`, `"X"`,
`"O"`; the turn is one of the two symbols; the status is `playing` or
`finished`; while playing there is no winning line yet and the symbol
counts are balanced according to whose turn it is; a winning line forces
at least 5 moves on the board; the winner field is non-empty exactly for
finished games and holds `"X"`, `"O"` or `"draw"` when set. -/
def GoodGame (g : Game) : Prop :=
  (∀ i, g.board i = "" ∨ g.board i = "X" ∨ g.board i = "O") ∧
  (g.currentTurn = "X" ∨ g.currentTurn = "O") ∧
  (g.status = STATUS_PLAYING ∨ g.status = STATUS_FINISHED) ∧
  (g.status = STATUS_PLAYING →
    CheckWinner g.board = "" ∧
    (g.currentTurn = "X" → countSym g.board "X" = countSym g.board "O") ∧
    (g.currentTurn = "O" →
      countSym g.board "X" = countSym g.board "O" + 1)) ∧
  (CheckWinner g.board ≠ "" → 5 ≤ movesPlayed g.board) ∧
  (g.winner ≠ "" ↔ g.status = STATUS_FINISHED) ∧
  (g.winner = "" ∨ g.winner = "X" ∨ g.winner = "O" ∨ g.winner = "draw")

/-- Demo player "Alice" (identifier `"a"`). -/
def alice : Player := NewPlayer "a" "Alice"

/-- Demo player "Bob" (identifier `"b"`). -/
def bob : Player := NewPlayer "b" "Bob"

/-- Demo player "Carol" (identifier `"c"`), never put in a game. -/
def carol : Player := NewPlayer "c" "Carol"

/-- A fresh match between Alice (X) and Bob (O). -/
def demoGame : Game := matchGame "g1" alice bob

/-- `demoGame` after the legal sequence 0, 4, 1, 5, 2: Alice completes the
top row with her fifth move. -/
def demoWonGame : Game :=
  (MakeMove (MakeMove (MakeMove (MakeMove
    (MakeMove demoGame "a" 0).2 "b" 4).2 "a" 1).2 "b" 5).2 "a" 2).2

/-- A server with three registered players, one stored game, empty queue. -/
def demoServer : GameServer :=
  { games := [("g1", demoGame)]
    players := [("a", alice), ("b", bob), ("c", carol)]
    matchmaking := [] }

/-- The denominator of the code's expected-score computation,
`1 + (10 XOR ((ratingO − ratingX) tdiv 400))` as a rational.  It is zero
exactly when the XOR yields −1 (rating gap 4400–4799): there the Go code
divides by zero, producing `+Inf` and implementation-defined
float-to-int conversions — a path the exact-arithmetic embedding (with
Lean's `1/0 = 0`) does not model, so cancellation statements about the
deltas are made only under a non-zero-denominator hypothesis. -/
def ratingDenominator (ratingX ratingO : Int) : ℚ :=
  1 + ((Int.xor 10 (Int.tdiv (ratingO - ratingX) 400) : Int) : ℚ)

/-- The expected score the SPEC prescribes (for comparison with
`updateRatingChanges`, which embeds what the code computes): real
exponentiation `1 / (1 + 10^((ratingO − ratingX) / 400))`. -/
noncomputable def specExpectedX (ratingX ratingO : Int) : ℝ :=
  1 / (1 + (10 : ℝ) ^ ((((ratingO : ℝ)) - ((ratingX : ℝ))) / 400))

/-- A server with Alice already waiting in the queue and Bob about to join. -/
def queueServer : GameServer :=
  { games := []
    players := [("a", alice), ("b", bob)]
    matchmaking := ["a"] }

/-- A `make_move` envelope whose client-supplied player-identifier fields
claim to be "mallory". -/
def msgA : GameMessage :=
  { type := "make_move"
    data := { gameId := some "g1", position := some 0
              playerId := some "mallory" }
    gameId := none
    playerID := "mallory" }

/-- The same move as `msgA` with no client-supplied player identifiers. -/
def msgB : GameMessage :=
  { type := "make_move"
    data := { gameId := some "g1", position := some 0, playerId := none }
    gameId := none
    playerID := "b" }

lemma ivm_none_facts {g : Game} {playerID : String} {position : Int}
    (h : IsValidMove g playerID position = none) :
    g.status = STATUS_PLAYING ∧ 0 ≤ position ∧ position < 9 ∧
      getCell g.board position = "" := by
  unfold IsValidMove at h
  split_ifs at h with h1 h2 h3 h4 h5 <;>
    exact ⟨not_not.mp h1, by omega, by omega, not_not.mp h3⟩

lemma getCell_eq {b : Board} {position : Int} (h0 : 0 ≤ position)
    (h9 : position < 9) :
    getCell b position = b ⟨position.toNat, by omega⟩ := by
  unfold getCell
  rw [dif_pos ⟨h0, h9⟩]

lemma setCell_eq_update {b : Board} {position : Int} (h0 : 0 ≤ position)
    (h9 : position < 9) (s : String) :
    setCell b position s = Function.update b ⟨position.toNat, by omega⟩ s := by
  unfold setCell
  rw [dif_pos ⟨h0, h9⟩]

lemma countSym_update (b : Board) (idx : Fin 9) (t s : String)
    (hb : b idx ≠ s) :
    countSym (Function.update b idx t) s =
      countSym b s + (if t = s then 1 else 0) := by
  unfold countSym
  by_cases ht : t = s
  · subst ht
    rw [if_pos rfl]
    have hset : Finset.univ.filter (fun i => Function.update b idx t i = t) =
        insert idx (Finset.univ.filter (fun i => b i = t)) := by
      ext i
      by_cases hi : i = idx <;>
        simp [Function.update_apply, hi]
    rw [hset, Finset.card_insert_of_not_mem (by simp [hb])]
  · rw [if_neg ht, Nat.add_zero]
    have hset : Finset.univ.filter (fun i => Function.update b idx t i = s) =
        Finset.univ.filter (fun i => b i = s) := by
      ext i
      by_cases hi : i = idx <;> simp [Function.update_apply, hi, ht, hb]
    rw [hset]

lemma movesPlayed_update (b : Board) (idx : Fin 9) (t : String)
    (hb : b idx = "") (ht : t ≠ "") :
    movesPlayed (Function.update b idx t) = movesPlayed b + 1 := by
  unfold movesPlayed
  have hset : Finset.univ.filter (fun i => Function.update b idx t i ≠ "") =
      insert idx (Finset.univ.filter (fun i => b i ≠ "")) := by
    ext i
    by_cases hi : i = idx <;>
      simp [Function.update_apply, hi, ht, hb]
  rw [hset, Finset.card_insert_of_not_mem (by simp [hb])]

lemma movesPlayed_eq_counts (b : Board)
    (hc : ∀ i, b i = "" ∨ b i = "X" ∨ b i = "O") :
    movesPlayed b = countSym b "X" + countSym b "O" := by
  unfold movesPlayed countSym
  have hdisj : Disjoint (Finset.univ.filter (fun i : Fin 9 => b i = "X"))
      (Finset.univ.filter (fun i : Fin 9 => b i = "O")) := by
    rw [Finset.disjoint_filter]
    intro i _ hx ho
    rw [hx] at ho
    exact absurd ho (by decide)
  have hsplit : Finset.univ.filter (fun i : Fin 9 => b i ≠ "") =
      Finset.univ.filter (fun i : Fin 9 => b i = "X") ∪
        Finset.univ.filter (fun i : Fin 9 => b i = "O") := by
    ext i
    rcases hc i with h | h | h <;> simp [h]
  rw [hsplit, Finset.card_union_of_disjoint hdisj]

lemma scanCombos_ne_iff (b : Board) (l : List (Fin 9 × Fin 9 × Fin 9)) :
    scanCombos b l ≠ "" ↔
      ∃ c ∈ l, b c.1 ≠ "" ∧ b c.1 = b c.2.1 ∧ b c.2.1 = b c.2.2 := by
  induction l with
  | nil => simp [scanCombos]
  | cons c rest ih =>
    obtain ⟨i, j, k⟩ := c
    rw [scanCombos]
    split_ifs with h
    · simp only [List.mem_cons]
      constructor
      · intro _
        exact ⟨(i, j, k), Or.inl rfl, h⟩
      · intro _
        exact h.1
    · simp only [List.mem_cons, ih]
      constructor
      · rintro ⟨c, hc, hm⟩
        exact ⟨c, Or.inr hc, hm⟩
      · rintro ⟨c, hc | hc, hm⟩
        · subst hc
          exact absurd hm h
        · exact ⟨c, hc, hm⟩

lemma scanCombos_eq_or (b : Board) (l : List (Fin 9 × Fin 9 × Fin 9)) :
    scanCombos b l = "" ∨ ∃ c ∈ l, scanCombos b l = b c.1 := by
  induction l with
  | nil => simp [scanCombos]
  | cons c rest ih =>
    obtain ⟨i, j, k⟩ := c
    rw [scanCombos]
    split_ifs with h
    · exact Or.inr ⟨(i, j, k), by simp, rfl⟩
    · rcases ih with h0 | ⟨c, hc, he⟩
      · exact Or.inl h0
      · exact Or.inr ⟨c, List.mem_cons_of_mem _ hc, he⟩

set_option maxRecDepth 4000 in
lemma winningCombos_distinct :
    ∀ c ∈ winningCombos, c.1 ≠ c.2.1 ∧ c.1 ≠ c.2.2 ∧ c.2.1 ≠ c.2.2 := by
  decide

lemma three_le_countSym {b : Board} {w : String}
    {c : Fin 9 × Fin 9 × Fin 9} (hc : c ∈ winningCombos)
    (h1 : b c.1 = w) (h2 : b c.2.1 = w) (h3 : b c.2.2 = w) :
    3 ≤ countSym b w := by
  obtain ⟨d1, d2, d3⟩ := winningCombos_distinct c hc
  have hsub : ({c.1, c.2.1, c.2.2} : Finset (Fin 9)) ⊆
      Finset.univ.filter (fun i => b i = w) := by
    intro i hi
    simp only [Finset.mem_insert, Finset.mem_singleton] at hi
    rcases hi with rfl | rfl | rfl <;> simp [h1, h2, h3]
  have hcard : ({c.1, c.2.1, c.2.2} : Finset (Fin 9)).card = 3 := by
    rw [Finset.card_insert_of_not_mem (by simp [d1, d2]),
      Finset.card_insert_of_not_mem (by simp [d3]), Finset.card_singleton]
  calc 3 = ({c.1, c.2.1, c.2.2} : Finset (Fin 9)).card := hcard.symm
    _ ≤ _ := Finset.card_le_card hsub

lemma updatePlayerStats_fields (g : Game) :
    (updatePlayerStats g).id = g.id ∧
    (updatePlayerStats g).board = g.board ∧
    (updatePlayerStats g).currentTurn = g.currentTurn ∧
    (updatePlayerStats g).status = g.status ∧
    (updatePlayerStats g).winner = g.winner := by
  unfold updatePlayerStats
  rcases g.playerX with _ | pX <;> rcases g.playerO with _ | pO <;>
    simp only [] <;> [skip; skip; skip; split_ifs] <;> simp

lemma goTrunc_neg (q : ℚ) : goTrunc (-q) = -goTrunc q := by
  unfold goTrunc
  rcases lt_trichotomy q 0 with h | h | h
  · rw [if_neg (by linarith), if_pos h]
    simp
  · subst h
    simp
  · rw [if_pos (by linarith), if_neg (by linarith)]
    simp

lemma goodGame_congr {g1 g2 : Game} (hb : g2.board = g1.board)
    (ht : g2.currentTurn = g1.currentTurn) (hs : g2.status = g1.status)
    (hw : g2.winner = g1.winner) (h : GoodGame g1) : GoodGame g2 := by
  unfold GoodGame at h ⊢
  rw [hb, ht, hs, hw]
  exact h

set_option maxRecDepth 8000 in
lemma goodGame_init (gid : String) (p1 p2 : Player) :
    GoodGame (matchGame gid p1 p2) := by
  have hb : (matchGame gid p1 p2).board = fun _ => "" := rfl
  have ht : (matchGame gid p1 p2).currentTurn = "X" := rfl
  have hs : (matchGame gid p1 p2).status = STATUS_PLAYING := rfl
  have hw : (matchGame gid p1 p2).winner = "" := rfl
  unfold GoodGame
  rw [hb, ht, hs, hw]
  refine ⟨fun i => Or.inl rfl, Or.inl rfl, Or.inl rfl,
    fun _ => ⟨by decide, by decide, by decide⟩, by decide, by decide,
    Or.inl rfl⟩

lemma goodGame_step (g : Game) (playerID : String) (position : Int)
    (hg : GoodGame g) : GoodGame (MakeMove g playerID position).2 := by
  obtain ⟨hcells, hturn, hstatus, hplay, hwin5, hwiff, hwvals⟩ := hg
  cases hv : IsValidMove g playerID position with
  | some e =>
    have hEq : (MakeMove g playerID position).2 = g := by
      simp [MakeMove, hv]
    rw [hEq]
    exact ⟨hcells, hturn, hstatus, hplay, hwin5, hwiff, hwvals⟩
  | none =>
    obtain ⟨hps, h0, h9, hcell⟩ := ivm_none_facts hv
    have h9' : position.toNat < 9 := by omega
    have hbcell : g.board ⟨position.toNat, h9'⟩ = "" := by
      rw [getCell_eq h0 h9] at hcell
      exact hcell
    have hset : setCell g.board position g.currentTurn =
        Function.update g.board ⟨position.toNat, h9'⟩ g.currentTurn :=
      setCell_eq_update h0 h9 _
    have hturn_ne : g.currentTurn ≠ "" := by
      rcases hturn with h | h <;> rw [h] <;> decide
    have hncells : ∀ i,
        Function.update g.board ⟨position.toNat, h9'⟩ g.currentTurn i = "" ∨
        Function.update g.board ⟨position.toNat, h9'⟩ g.currentTurn i = "X" ∨
        Function.update g.board ⟨position.toNat, h9'⟩ g.currentTurn i = "O" := by
      intro i
      by_cases hi : i = ⟨position.toNat, h9'⟩
      · subst hi
        rw [Function.update_same]
        rcases hturn with h | h <;> rw [h]
        · exact Or.inr (Or.inl rfl)
        · exact Or.inr (Or.inr rfl)
      · rw [Function.update_noteq hi]
        exact hcells i
    have hcount : ∀ s, s ≠ "" →
        countSym (Function.update g.board ⟨position.toNat, h9'⟩ g.currentTurn) s
          = countSym g.board s + (if g.currentTurn = s then 1 else 0) := by
      intro s hs
      refine countSym_update _ _ _ _ ?_
      rw [hbcell]
      exact fun h => hs h.symm
    have hcX := hcount "X" (by decide)
    have hcO := hcount "O" (by decide)
    have hmeq := movesPlayed_eq_counts _ hncells
    obtain ⟨hnoline, hbalX, hbalO⟩ := hplay hps
    by_cases hw :
        CheckWinner (Function.update g.board ⟨position.toNat, h9'⟩
          g.currentTurn) ≠ ""
    · have hEq : (MakeMove g playerID position).2 = updatePlayerStats
          { g with
              board := Function.update g.board ⟨position.toNat, h9'⟩
                g.currentTurn
              status := STATUS_FINISHED
              winner := CheckWinner (Function.update g.board
                ⟨position.toNat, h9'⟩ g.currentTurn) } := by
        simp [MakeMove, hv, hset, hw]
      rw [hEq]
      obtain ⟨_, hub, hut, hus, huw⟩ := updatePlayerStats_fields _
      apply goodGame_congr hub hut hus huw
      have hfive : 5 ≤ movesPlayed
          (Function.update g.board ⟨position.toNat, h9'⟩ g.currentTurn) := by
        obtain ⟨c, hcmem, hc1, hc12, hc23⟩ :=
          (scanCombos_ne_iff _ winningCombos).mp hw
        have h3 := three_le_countSym hcmem rfl hc12.symm (hc12.trans hc23).symm
        have hwsym :
            Function.update g.board ⟨position.toNat, h9'⟩ g.currentTurn c.1
              = "X" ∨
            Function.update g.board ⟨position.toNat, h9'⟩ g.currentTurn c.1
              = "O" := by
          rcases hncells c.1 with h | h | h
          · exact absurd h hc1
          · exact Or.inl h
          · exact Or.inr h
        rcases hturn with ht | ht
        · have hX1 : countSym (Function.update g.board ⟨position.toNat, h9'⟩
              g.currentTurn) "X" = countSym g.board "X" + 1 := by
            rw [hcX, if_pos ht]
          have hO1 : countSym (Function.update g.board ⟨position.toNat, h9'⟩
              g.currentTurn) "O" = countSym g.board "O" := by
            rw [hcO, if_neg (by rw [ht]; decide), Nat.add_zero]
          have hk := hbalX ht
          rcases hwsym with hx | hx <;> rw [hx] at h3 <;> omega
        · have hX1 : countSym (Function.update g.board ⟨position.toNat, h9'⟩
              g.currentTurn) "X" = countSym g.board "X" := by
            rw [hcX, if_neg (by rw [ht]; decide), Nat.add_zero]
          have hO1 : countSym (Function.update g.board ⟨position.toNat, h9'⟩
              g.currentTurn) "O" = countSym g.board "O" + 1 := by
            rw [hcO, if_pos ht]
          have hk := hbalO ht
          rcases hwsym with hx | hx <;> rw [hx] at h3 <;> omega
      refine ⟨hncells, hturn, Or.inr rfl, ?_, fun _ => hfive,
        ⟨fun _ => rfl, fun _ => hw⟩, ?_⟩
      · intro hps2
        exact absurd (show STATUS_FINISHED = STATUS_PLAYING from hps2)
          (by decide)
      · rcases scanCombos_eq_or (Function.update g.board
            ⟨position.toNat, h9'⟩ g.currentTurn) winningCombos with h | ⟨c, _, he⟩
        · exact Or.inl h
        · have hrw : CheckWinner (Function.update g.board
              ⟨position.toNat, h9'⟩ g.currentTurn) =
              Function.update g.board ⟨position.toNat, h9'⟩ g.currentTurn c.1 :=
            he
          rw [hrw]
          rcases hncells c.1 with h | h | h
          · exact Or.inl h
          · exact Or.inr (Or.inl h)
          · exact Or.inr (Or.inr (Or.inl h))
    · have hnw : CheckWinner (Function.update g.board ⟨position.toNat, h9'⟩
          g.currentTurn) = "" := not_not.mp hw
      by_cases hf : IsBoardFull (Function.update g.board
          ⟨position.toNat, h9'⟩ g.currentTurn)
      · have hEq : (MakeMove g playerID position).2 = updatePlayerStats
            { g with
                board := Function.update g.board ⟨position.toNat, h9'⟩
                  g.currentTurn
                status := STATUS_FINISHED
                winner := "draw" } := by
          simp [MakeMove, hv, hset, hw, hf]
        rw [hEq]
        obtain ⟨_, hub, hut, hus, huw⟩ := updatePlayerStats_fields _
        apply goodGame_congr hub hut hus huw
        refine ⟨hncells, hturn, Or.inr rfl, ?_, ?_,
          ⟨fun _ => rfl, fun _ => (show ("draw" : String) ≠ "" by decide)⟩,
          Or.inr (Or.inr (Or.inr rfl))⟩
        · intro hps2
          exact absurd (show STATUS_FINISHED = STATUS_PLAYING from hps2)
            (by decide)
        · intro hw2
          exact absurd hnw hw2
      · have hEq : (MakeMove g playerID position).2 =
            { g with
                board := Function.update g.board ⟨position.toNat, h9'⟩
                  g.currentTurn
                currentTurn := if g.currentTurn = "X" then "O" else "X" } := by
          simp [MakeMove, hv, hset, hw, hf]
        rw [hEq]
        have hwinner_empty : g.winner = "" := by
          by_contra hne
          have hfin := hwiff.mp hne
          rw [hps] at hfin
          exact absurd hfin (by decide)
        refine ⟨hncells, ?_, hstatus, ?_, ?_, hwiff, hwvals⟩
        · by_cases ht : g.currentTurn = "X" <;> simp [ht]
        · intro _
          refine ⟨hnw, ?_, ?_⟩
          · intro hflip
            rcases hturn with ht | ht
            · rw [ht] at hflip
              simp at hflip
            · show countSym (Function.update g.board ⟨position.toNat, h9'⟩
                  g.currentTurn) "X" =
                countSym (Function.update g.board ⟨position.toNat, h9'⟩
                  g.currentTurn) "O"
              have hX1 : countSym (Function.update g.board
                  ⟨position.toNat, h9'⟩ g.currentTurn) "X" =
                  countSym g.board "X" := by
                rw [hcX, if_neg (by rw [ht]; decide), Nat.add_zero]
              have hO1 : countSym (Function.update g.board
                  ⟨position.toNat, h9'⟩ g.currentTurn) "O" =
                  countSym g.board "O" + 1 := by
                rw [hcO, if_pos ht]
              have hk := hbalO ht
              omega
          · intro hflip
            rcases hturn with ht | ht
            · show countSym (Function.update g.board ⟨position.toNat, h9'⟩
                  g.currentTurn) "X" =
                countSym (Function.update g.board ⟨position.toNat, h9'⟩
                  g.currentTurn) "O" + 1
              have hX1 : countSym (Function.update g.board
                  ⟨position.toNat, h9'⟩ g.currentTurn) "X" =
                  countSym g.board "X" + 1 := by
                rw [hcX, if_pos ht]
              have hO1 : countSym (Function.update g.board
                  ⟨position.toNat, h9'⟩ g.currentTurn) "O" =
                  countSym g.board "O" := by
                rw [hcO, if_neg (by rw [ht]; decide), Nat.add_zero]
              have hk := hbalX ht
              omega
            · rw [ht] at hflip
              simp at hflip
        · intro hw2
          exact absurd hnw hw2

lemma reachable_goodGame {g : Game} (h : ReachableGame g) : GoodGame g := by
  induction h with
  | init gid p1 p2 => exact goodGame_init gid p1 p2
  | step g playerID position _ ih => exact goodGame_step g playerID position ih

lemma removeFirst_sublist (l : List String) (x : String) :
    List.Sublist (removeFirst l x) l := by
  induction l with
  | nil => simp [removeFirst]
  | cons a t ih =>
    rw [removeFirst]
    split_ifs with h
    · exact (List.Sublist.refl t).cons a
    · exact ih.cons₂ a

lemma createMatch_queue (gs : GameServer) (gid : String) :
    (createMatch gs gid).matchmaking = gs.matchmaking ∨
    (createMatch gs gid).matchmaking = gs.matchmaking.drop 2 := by
  rcases hq : gs.matchmaking with _ | ⟨a, _ | ⟨b, t⟩⟩
  · exact Or.inl (by simp [createMatch, hq])
  · exact Or.inl (by simp [createMatch, hq])
  · right
    cases hl1 : gs.players.lookup a <;> cases hl2 : gs.players.lookup b <;>
      simp [createMatch, hq, hl1, hl2]

lemma goTrunc_320_11 : goTrunc (320/11 : ℚ) = 29 := by
  unfold goTrunc
  rw [if_neg (by norm_num)]
  exact Int.floor_eq_iff.mpr (by norm_num)

lemma updateRatingChanges_equal_ratings :
    updateRatingChanges 1000 1000 1 = (29, -29) := by
  simp only [updateRatingChanges]
  rw [show Int.xor 10 (Int.tdiv ((1000 : Int) - 1000) 400) = 10 from
    by decide]
  have e1 : (1 : ℚ) / (1 + ((10 : Int) : ℚ)) = 1/11 := by norm_num
  rw [e1]
  have e2 : 32 * ((1 : ℚ) - 1/11) = 320/11 := by norm_num
  have e3 : 32 * (((1 : ℚ) - 1) - (1 - 1/11)) = -(320/11 : ℚ) := by
    norm_num
  rw [e2, e3, goTrunc_neg, goTrunc_320_11]

/-- C1: the claim says `updateRating` computes the X player's expected
score with real exponentiation `1 / (1 + 10^((ratingO − ratingX)/400))`
and deltas `round(K · (actual − expected))`.  The code instead parses
`10.0^(...)` as bitwise XOR after integer division, and `int(...)`
truncates.  At two players both rated 1000 with an X win the code's delta
for X is 29 (`expectedX = 1/11` via `10 XOR 0 = 10`), while the claimed
formula gives `round(32 · (1 − 1/2)) = 16`. -/
theorem updateRating_xor_truncation_divergence :
    updateRatingChanges 1000 1000 1 = (29, -29) ∧
    specExpectedX 1000 1000 = 1/2 ∧
    round ((32 : ℝ) * (1 - specExpectedX 1000 1000)) = 16 ∧
    (updateRatingChanges 1000 1000 1).1 ≠ 16 := by
  have hspec : specExpectedX 1000 1000 = 1/2 := by
    unfold specExpectedX
    rw [show ((((1000 : Int) : ℝ)) - (((1000 : Int) : ℝ))) / 400 = (0 : ℝ)
      from by norm_num, Real.rpow_zero]
    norm_num
  refine ⟨updateRatingChanges_equal_ratings, hspec, ?_, ?_⟩
  · rw [hspec, show (32 : ℝ) * (1 - 1/2) = ((16 : ℤ) : ℝ) from by norm_num,
      round_intCast]
  · rw [updateRatingChanges_equal_ratings]
    decide

/-- C9 counterexample: the claim says the two rating deltas cancel *only*
in the draw case.  Here is a decisive outcome (actual score 1.0, an X
win, not the draw score 0.5) between two players rated 1000 whose deltas
are 29 and −29 — they cancel exactly. -/
theorem ratingDeltas_cancel_decisive_counterexample :
    (1 : ℚ) ≠ 1/2 ∧
    updateRatingChanges 1000 1000 1 = (29, -29) ∧
    (updateRatingChanges 1000 1000 1).1 +
      (updateRatingChanges 1000 1000 1).2 = 0 := by
  refine ⟨by norm_num, updateRatingChanges_equal_ratings, ?_⟩
  rw [updateRatingChanges_equal_ratings]
  decide

/-- C9 (amended): whenever the code's expected-score denominator
`1 + (10 XOR ((ratingO − ratingX) tdiv 400))` is non-zero — i.e., except
in the rating-gap window 4400–4799 where the Go code divides by zero and
converts `±Inf` with implementation-defined results, a path outside this
embedding — the two rating deltas of `updateRating` sum to zero, for
draws and decisive games alike, because in exact arithmetic
`(1−score) − (1−expectedX) = −(score − expectedX)` and truncation toward
zero commutes with negation; and after the final clamp both ratings are
≥ 0 in every case, whatever the deltas were. -/
theorem ratingDeltas_cancel_nonzero_denominator :
    (∀ (ratingX ratingO : Int) (score : ℚ),
      ratingDenominator ratingX ratingO ≠ 0 →
      (updateRatingChanges ratingX ratingO score).1 +
        (updateRatingChanges ratingX ratingO score).2 = 0) ∧
    (∀ (pX pO : Player) (score : ℚ),
      0 ≤ (updateRating pX pO score).1.rating ∧
      0 ≤ (updateRating pX pO score).2.rating) := by
  constructor
  · intro ratingX ratingO score _
    simp only [updateRatingChanges]
    rw [show 32 * ((1 - score) - (1 - 1 / (1 +
        ((Int.xor 10 (Int.tdiv (ratingO - ratingX) 400) : Int) : ℚ)))) =
      -(32 * (score - 1 / (1 +
        ((Int.xor 10 (Int.tdiv (ratingO - ratingX) 400) : Int) : ℚ))))
      from by ring, goTrunc_neg]
    omega
  · intro pX pO score
    unfold updateRating clampRating
    constructor <;> dsimp only <;> split_ifs <;> omega

/-- C9 witness: between two 1000-rated players the denominator is
`1 + (10 XOR 0) = 11 ≠ 0`, and the deltas of a decisive game (score 1.0)
sum to zero. -/
theorem ratingDeltas_cancel_nonzero_denominator_witness :
    ratingDenominator 1000 1000 ≠ 0 ∧
    (updateRatingChanges 1000 1000 1).1 +
      (updateRatingChanges 1000 1000 1).2 = 0 := by
  have hden : ratingDenominator 1000 1000 ≠ 0 := by
    unfold ratingDenominator
    rw [show Int.xor 10 (Int.tdiv ((1000 : Int) - 1000) 400) = 10 from
      by decide]
    norm_num
  exact ⟨hden,
    (ratingDeltas_cancel_nonzero_denominator).1 1000 1000 1 hden⟩

/-- C2: `IsValidMove` fails with `NotPlaying` iff status ≠ `playing`;
otherwise `OutOfRange` iff the position is outside 0–8; otherwise
`CellOccupied` iff the cell is non-empty; otherwise `PlayerNotInGame` iff
the identifier matches neither assigned player; otherwise `NotYourTurn`
iff the matching player's symbol differs from the current turn; and it
succeeds exactly in the remaining case.  It is pure by construction: it
returns only a verdict and no game. -/
theorem isValidMove_error_cases (g : Game) (playerID : String)
    (position : Int) :
    (IsValidMove g playerID position = some .NotPlaying ↔
      g.status ≠ STATUS_PLAYING) ∧
    (IsValidMove g playerID position = some .OutOfRange ↔
      g.status = STATUS_PLAYING ∧ (position < 0 ∨ 8 < position)) ∧
    (IsValidMove g playerID position = some .CellOccupied ↔
      g.status = STATUS_PLAYING ∧ ¬(position < 0 ∨ 8 < position) ∧
        getCell g.board position ≠ "") ∧
    (IsValidMove g playerID position = some .PlayerNotInGame ↔
      g.status = STATUS_PLAYING ∧ ¬(position < 0 ∨ 8 < position) ∧
        getCell g.board position = "" ∧
        playerIs g.playerX playerID = false ∧
        playerIs g.playerO playerID = false) ∧
    (IsValidMove g playerID position = some .NotYourTurn ↔
      g.status = STATUS_PLAYING ∧ ¬(position < 0 ∨ 8 < position) ∧
        getCell g.board position = "" ∧
        ((playerIs g.playerX playerID = true ∧ g.currentTurn ≠ "X") ∨
         (playerIs g.playerX playerID = false ∧
          playerIs g.playerO playerID = true ∧ g.currentTurn ≠ "O"))) ∧
    (IsValidMove g playerID position = none ↔
      g.status = STATUS_PLAYING ∧ ¬(position < 0 ∨ 8 < position) ∧
        getCell g.board position = "" ∧
        ((playerIs g.playerX playerID = true ∧ g.currentTurn = "X") ∨
         (playerIs g.playerX playerID = false ∧
          playerIs g.playerO playerID = true ∧ g.currentTurn = "O"))) := by
  unfold IsValidMove
  split_ifs with h1 h2 h3 h4 h5 h6 h7 <;> simp_all

/-- C3: when validation succeeds, `MakeMove` returns no error, writes the
current-turn symbol into the chosen cell, and then: if the new board has
a winning line or is full the status becomes `finished` with the turn
left as it was; otherwise the status is unchanged and the turn flips to
the other symbol. -/
theorem makeMove_success_effects (g : Game) (playerID : String)
    (position : Int) (h : IsValidMove g playerID position = none) :
    (MakeMove g playerID position).1 = none ∧
    (MakeMove g playerID position).2.board =
      setCell g.board position g.currentTurn ∧
    ((CheckWinner (setCell g.board position g.currentTurn) ≠ "" ∨
        IsBoardFull (setCell g.board position g.currentTurn)) →
      (MakeMove g playerID position).2.status = STATUS_FINISHED ∧
      (MakeMove g playerID position).2.currentTurn = g.currentTurn) ∧
    (CheckWinner (setCell g.board position g.currentTurn) = "" →
      ¬IsBoardFull (setCell g.board position g.currentTurn) →
      (MakeMove g playerID position).2.status = g.status ∧
      (MakeMove g playerID position).2.currentTurn =
        (if g.currentTurn = "X" then "O" else "X")) := by
  by_cases hw : CheckWinner (setCell g.board position g.currentTurn) ≠ ""
  · have hEq : MakeMove g playerID position = (none, updatePlayerStats
        { g with
            board := setCell g.board position g.currentTurn
            status := STATUS_FINISHED
            winner :=
              CheckWinner (setCell g.board position g.currentTurn) }) := by
      simp [MakeMove, h, hw]
    obtain ⟨_, hub, hut, hus, _⟩ := updatePlayerStats_fields
      { g with
          board := setCell g.board position g.currentTurn
          status := STATUS_FINISHED
          winner := CheckWinner (setCell g.board position g.currentTurn) }
    rw [hEq]
    refine ⟨rfl, ?_, fun _ => ⟨?_, ?_⟩, fun hnw _ => absurd hnw hw⟩
    · rw [hub]
    · rw [hus]
    · rw [hut]
  · have hnw : CheckWinner (setCell g.board position g.currentTurn) = "" :=
      not_not.mp hw
    by_cases hf : IsBoardFull (setCell g.board position g.currentTurn)
    · have hEq : MakeMove g playerID position = (none, updatePlayerStats
          { g with
              board := setCell g.board position g.currentTurn
              status := STATUS_FINISHED
              winner := "draw" }) := by
        simp [MakeMove, h, hw, hf]
      obtain ⟨_, hub, hut, hus, _⟩ := updatePlayerStats_fields
        { g with
            board := setCell g.board position g.currentTurn
            status := STATUS_FINISHED
            winner := "draw" }
      rw [hEq]
      refine ⟨rfl, ?_, fun _ => ⟨?_, ?_⟩, fun _ hnf => absurd hf hnf⟩
      · rw [hub]
      · rw [hus]
      · rw [hut]
    · have hEq : MakeMove g playerID position =
          (none, { g with
              board := setCell g.board position g.currentTurn
              currentTurn := if g.currentTurn = "X" then "O" else "X" }) := by
        simp [MakeMove, h, hw, hf]
      rw [hEq]
      refine ⟨rfl, rfl, ?_, fun _ _ => ⟨rfl, rfl⟩⟩
      intro hor
      cases hor with
      | inl hh => exact absurd hh hw
      | inr hh => exact absurd hh hf

/-- C3 witness: Alice opens at cell 0 in the fresh demo game; the move is
accepted and the turn flips from `"X"` to `"O"`. -/
theorem makeMove_success_effects_witness :
    (MakeMove demoGame "a" 0).1 = none ∧
    (MakeMove demoGame "a" 0).2.currentTurn = "O" := by
  have h : IsValidMove demoGame "a" 0 = none := by decide
  have hmain := makeMove_success_effects demoGame "a" 0 h
  refine ⟨hmain.1, ?_⟩
  have h2 := hmain.2.2.2 (by decide) (by decide)
  rw [h2.2]
  decide

/-- C5: a `MakeMove` call that reports any validation error returns the
game completely unchanged (board, turn, status, winner, both player
records); and a move by an identifier matching neither player — once the
earlier checks pass — is rejected precisely with `PlayerNotInGame`. -/
theorem makeMove_error_no_mutation :
    (∀ (g : Game) (playerID : String) (position : Int) (e : MoveError),
      (MakeMove g playerID position).1 = some e →
      (MakeMove g playerID position).2 = g) ∧
    (∀ (g : Game) (playerID : String) (position : Int),
      g.status = STATUS_PLAYING → ¬(position < 0 ∨ 8 < position) →
      getCell g.board position = "" →
      playerIs g.playerX playerID = false →
      playerIs g.playerO playerID = false →
      MakeMove g playerID position = (some .PlayerNotInGame, g)) := by
  constructor
  · intro g playerID position e h
    cases hv : IsValidMove g playerID position with
    | some e2 => simp [MakeMove, hv]
    | none =>
      have h1 : (MakeMove g playerID position).1 = none := by
        simp only [MakeMove, hv]
        split_ifs <;> rfl
      rw [h1] at h
      cases h
  · intro g playerID position h1 h2 h3 h4 h5
    have hv : IsValidMove g playerID position = some .PlayerNotInGame := by
      simp [IsValidMove, h1, h2, h3, h4, h5]
    simp [MakeMove, hv]

/-- C5 witness: Carol, a third player unrelated to the demo game, tries
cell 0; the move is rejected with `PlayerNotInGame` and the game value is
returned untouched. -/
theorem makeMove_error_no_mutation_witness :
    (MakeMove demoGame "c" 0).2 = demoGame ∧
    MakeMove demoGame "c" 0 = (some .PlayerNotInGame, demoGame) :=
  ⟨(makeMove_error_no_mutation).1 demoGame "c" 0 .PlayerNotInGame
      (by decide),
   (makeMove_error_no_mutation).2 demoGame "c" 0 (by decide) (by decide)
      (by decide) (by decide) (by decide)⟩

/-- C4: `CheckWinner` reports a winner exactly when one of the 8 winning
lines holds three equal non-empty cells; the combined termination
evaluation reports a draw exactly when all 9 cells are filled and no line
matches (over boards whose cells hold only the two symbols or blanks, as
every reachable board does), reports nothing when the board is neither
won nor full, and on every game reachable by legal play a winning line
implies at least 5 moves on the board. -/
theorem termination_characterization :
    (∀ b : Board, CheckWinner b ≠ "" ↔
      ∃ c ∈ winningCombos,
        b c.1 ≠ "" ∧ b c.1 = b c.2.1 ∧ b c.2.1 = b c.2.2) ∧
    (∀ b : Board, (∀ i, b i = "" ∨ b i = "X" ∨ b i = "O") →
      (evaluateTermination b = "draw" ↔
        (IsBoardFull b ∧ CheckWinner b = ""))) ∧
    (∀ b : Board, CheckWinner b = "" → ¬IsBoardFull b →
      evaluateTermination b = "") ∧
    (∀ g : Game, ReachableGame g → CheckWinner g.board ≠ "" →
      5 ≤ movesPlayed g.board) := by
  refine ⟨fun b => scanCombos_ne_iff b winningCombos, ?_, ?_, ?_⟩
  · intro b hc
    unfold evaluateTermination
    split_ifs with hw hf
    · constructor
      · intro hd
        rcases scanCombos_eq_or b winningCombos with h | ⟨c, _, he⟩
        · exact absurd h hw
        · have hcell : b c.1 = "draw" := by
            rw [← he]
            exact hd
          rcases hc c.1 with h | h | h <;> rw [h] at hcell <;>
            exact absurd hcell (by decide)
      · rintro ⟨_, hcw⟩
        exact absurd hcw hw
    · exact ⟨fun _ => ⟨hf, not_not.mp hw⟩, fun _ => rfl⟩
    · constructor
      · intro hd
        exact absurd hd (by decide)
      · rintro ⟨hfull, _⟩
        exact absurd hfull hf
  · intro b hcw hnf
    unfold evaluateTermination
    rw [if_neg (not_not_intro hcw), if_neg hnf]
  · intro g hr hw
    exact (reachable_goodGame hr).2.2.2.2.1 hw

/-- C4 witness: the demo game won by Alice on the top row has a winning
line and exactly 5 moves on the board. -/
theorem termination_characterization_witness :
    5 ≤ movesPlayed demoWonGame.board := by
  have hr : ReachableGame demoWonGame :=
    ReachableGame.step _ "a" 2 (ReachableGame.step _ "b" 5
      (ReachableGame.step _ "a" 1 (ReachableGame.step _ "b" 4
        (ReachableGame.step _ "a" 0 (ReachableGame.init "g1" alice bob)))))
  exact (termination_characterization).2.2.2 demoWonGame hr (by decide)

/-- C8: in every game reachable by match creation followed by any
sequence of `MakeMove` calls, the winner field is non-empty exactly when
the status is `finished`, and when set it is `"X"`, `"O"` or `"draw"`. -/
theorem winner_iff_finished (g : Game) (h : ReachableGame g) :
    (g.winner ≠ "" ↔ g.status = STATUS_FINISHED) ∧
    (g.winner = "" ∨ g.winner = "X" ∨ g.winner = "O" ∨
      g.winner = "draw") :=
  ⟨(reachable_goodGame h).2.2.2.2.2.1, (reachable_goodGame h).2.2.2.2.2.2⟩

/-- C8 witness: the finished demo game has a non-empty winner, and the
equivalence transports that to `finished` status. -/
theorem winner_iff_finished_witness :
    demoWonGame.winner ≠ "" ∧ demoWonGame.status = STATUS_FINISHED := by
  have hr : ReachableGame demoWonGame :=
    ReachableGame.step _ "a" 2 (ReachableGame.step _ "b" 5
      (ReachableGame.step _ "a" 1 (ReachableGame.step _ "b" 4
        (ReachableGame.step _ "a" 0 (ReachableGame.init "g1" alice bob)))))
  exact ⟨by decide, (winner_iff_finished demoWonGame hr).1.mp (by decide)⟩

/-- C6: a successful join that brings the queue to ≥ 2 entries triggers a
match attempt immediately, and `createMatch` is strict FIFO: it removes
exactly the two earliest-queued identifiers, and — when both still
resolve in the player registry — stores one new game in `playing` status
with the first dequeued player as X and the second as O,
deterministically. -/
theorem matchmaking_fifo :
    (∀ (gs : GameServer) (player : Player) (gid : String),
      player.id ∉ gs.matchmaking → gs.matchmaking ≠ [] →
      handleJoinQueue gs player gid =
        createMatch
          { gs with matchmaking := gs.matchmaking ++ [player.id] } gid) ∧
    (∀ (gs : GameServer) (gid : String) (a b : String) (t : List String),
      gs.matchmaking = a :: b :: t →
      (createMatch gs gid).matchmaking = t ∧
      (∀ p1 p2 : Player,
        gs.players.lookup a = some p1 → gs.players.lookup b = some p2 →
        (createMatch gs gid).games =
          (gid, matchGame gid p1 p2) :: gs.games ∧
        (matchGame gid p1 p2).status = STATUS_PLAYING ∧
        (matchGame gid p1 p2).playerX = some { p1 with symbol := "X" } ∧
        (matchGame gid p1 p2).playerO = some { p2 with symbol := "O" })) := by
  constructor
  · intro gs player gid hnot hne
    unfold handleJoinQueue
    rw [if_neg hnot]
    have hlen : 2 ≤ (gs.matchmaking ++ [player.id]).length := by
      have h1 : 1 ≤ gs.matchmaking.length := List.length_pos.mpr hne
      simp only [List.length_append, List.length_singleton]
      omega
    simp only [if_pos hlen]
  · intro gs gid a b t hq
    constructor
    · cases hl1 : gs.players.lookup a <;> cases hl2 : gs.players.lookup b <;>
        simp [createMatch, hq, hl1, hl2]
    · intro p1 p2 h1 h2
      refine ⟨?_, rfl, rfl, rfl⟩
      simp [createMatch, hq, h1, h2]

/-- C6 witness: Alice waits alone; Bob joins; the queue empties and the
stored game is Alice (X) versus Bob (O) in `playing` status; when Carol
then joins last, she is left enqueued alone. -/
theorem matchmaking_fifo_witness :
    (handleJoinQueue (handleJoinQueue queueServer bob "g9")
      carol "gZ").matchmaking = ["c"] ∧
    (handleJoinQueue queueServer bob "g9").games =
      [("g9", matchGame "g9" alice bob)] := by
  have h1 := (matchmaking_fifo).1 queueServer bob "g9" (by decide)
    (by decide)
  have h2 := (matchmaking_fifo).2
    { queueServer with matchmaking := queueServer.matchmaking ++ [bob.id] }
    "g9" "a" "b" [] (by decide)
  obtain ⟨hm, hgames⟩ := h2
  have h3 := hgames alice bob (by decide) (by decide)
  refine ⟨by decide, ?_⟩
  rw [h1, h3.1]
  rfl

/-- C7: the waiting list never acquires a duplicate: a join is a no-op
when the identifier is already queued (so two consecutive joins from an
empty queue leave exactly one entry), a leave removes the first
occurrence when present and is a no-op otherwise, and both queue
operations preserve the no-duplicates invariant. -/
theorem queue_no_duplicates :
    (∀ (gs : GameServer) (player : Player) (gid : String),
      player.id ∈ gs.matchmaking → handleJoinQueue gs player gid = gs) ∧
    (∀ (gs : GameServer) (player : Player) (gid1 gid2 : String),
      gs.matchmaking = [] →
      (handleJoinQueue (handleJoinQueue gs player gid1)
        player gid2).matchmaking = [player.id]) ∧
    (∀ (gs : GameServer) (player : Player),
      (handleLeaveQueue gs player).matchmaking =
        removeFirst gs.matchmaking player.id) ∧
    (∀ (l1 l2 : List String) (x : String), x ∉ l1 →
      removeFirst (l1 ++ x :: l2) x = l1 ++ l2) ∧
    (∀ (l : List String) (x : String), x ∉ l → removeFirst l x = l) ∧
    (∀ (gs : GameServer) (player : Player) (gid : String),
      gs.matchmaking.Nodup →
      (handleJoinQueue gs player gid).matchmaking.Nodup) ∧
    (∀ (gs : GameServer) (player : Player),
      gs.matchmaking.Nodup →
      (handleLeaveQueue gs player).matchmaking.Nodup) := by
  refine ⟨?_, ?_, fun gs player => rfl, ?_, ?_, ?_, ?_⟩
  · intro gs player gid hmem
    unfold handleJoinQueue
    rw [if_pos hmem]
  · intro gs player gid1 gid2 hq
    have h1 : handleJoinQueue gs player gid1 =
        { gs with matchmaking := [player.id] } := by
      unfold handleJoinQueue
      rw [if_neg (by rw [hq]; exact List.not_mem_nil player.id)]
      simp [hq]
    rw [h1]
    unfold handleJoinQueue
    rw [if_pos (by simp)]
  · intro l1 l2 x hx
    induction l1 with
    | nil => simp [removeFirst]
    | cons a t ih =>
      have ha : a ≠ x := by
        intro he
        exact hx (by rw [he]; exact List.mem_cons_self x t)
      rw [List.cons_append, removeFirst, if_neg ha,
        ih (fun hm => hx (List.mem_cons_of_mem a hm)), List.cons_append]
  · intro l x hx
    induction l with
    | nil => rfl
    | cons a t ih =>
      have ha : a ≠ x := by
        intro he
        exact hx (by rw [he]; exact List.mem_cons_self x t)
      rw [removeFirst, if_neg ha,
        ih (fun hm => hx (List.mem_cons_of_mem a hm))]
  · intro gs player gid h
    by_cases hmem : player.id ∈ gs.matchmaking
    · unfold handleJoinQueue
      rw [if_pos hmem]
      exact h
    · have h1 : (gs.matchmaking ++ [player.id]).Nodup := by
        rw [List.nodup_append]
        exact ⟨h, List.nodup_singleton _,
          fun y hy hy2 => by
            simp only [List.mem_singleton] at hy2
            subst hy2
            exact hmem hy⟩
      unfold handleJoinQueue
      rw [if_neg hmem]
      dsimp only
      split_ifs with hlen
      · rcases createMatch_queue
          { gs with matchmaking := gs.matchmaking ++ [player.id] } gid with
          he | he <;> rw [he]
        · exact h1
        · exact List.Nodup.sublist (List.drop_sublist _ _) h1
      · exact h1
  · intro gs player h
    exact List.Nodup.sublist (removeFirst_sublist _ _) h

/-- C10: inbound dispatch overwrites the envelope's player identifier
with the identifier of the connection's registered player before
routing, and the `make_move` handler reads only the game identifier and
position from the payload — so two inbound messages that differ only in
client-supplied player-identifier fields (payload `playerId` and
envelope `PlayerID`) produce identical state changes, and a move is
always attributed to the connection's own player. -/
theorem makeMove_attribution :
    (∀ (gs : GameServer) (connPlayer : Player) (m1 m2 : GameMessage)
        (gid : String),
      m1.type = m2.type → m1.data.gameId = m2.data.gameId →
      m1.data.position = m2.data.position →
      handleMessage gs connPlayer m1 gid =
        handleMessage gs connPlayer m2 gid) ∧
    (∀ (gs : GameServer) (connPlayer : Player) (m : GameMessage)
        (gid : String),
      m.type = MSG_MAKE_MOVE →
      handleMessage gs connPlayer m gid =
        handleMakeMove gs { m with playerID := connPlayer.id }) := by
  constructor
  · intro gs connPlayer m1 m2 gid ht hg hp
    unfold handleMessage
    dsimp only
    rw [ht]
    split_ifs with hj hl hm <;> try rfl
    unfold handleMakeMove
    dsimp only
    rw [hg, hp]
  · intro gs connPlayer m gid hm
    unfold handleMessage
    dsimp only
    rw [hm]
    rw [if_neg (by decide), if_neg (by decide), if_pos rfl]

/-- C10 witness: two `make_move` envelopes for the same game and cell,
one claiming to come from "mallory", produce the same server state when
handled on Alice's connection, and the handled move is attributed to
Alice. -/
theorem makeMove_attribution_witness :
    handleMessage demoServer alice msgA "gX" =
      handleMessage demoServer alice msgB "gX" ∧
    handleMessage demoServer alice msgA "gX" =
      handleMakeMove demoServer { msgA with playerID := alice.id } :=
  ⟨(makeMove_attribution).1 demoServer alice msgA msgB "gX" rfl rfl rfl,
   (makeMove_attribution).2 demoServer alice msgA "gX" rfl⟩

/-- C7 witness: Alice's repeated join of a queue already holding `"a"` is
a no-op; a double join from an empty queue leaves exactly `["c"]`;
`removeFirst` drops only the first of two `"c"` entries and ignores an
absent identifier; and join and leave keep the concrete queues
duplicate-free. -/
theorem queue_no_duplicates_witness :
    handleJoinQueue queueServer alice "gW" = queueServer ∧
    (handleJoinQueue (handleJoinQueue demoServer carol "g1")
      carol "g2").matchmaking = ["c"] ∧
    removeFirst ["a", "c", "c"] "c" = ["a", "c"] ∧
    removeFirst ["a"] "z" = ["a"] ∧
    (handleJoinQueue queueServer bob "g9").matchmaking.Nodup ∧
    (handleLeaveQueue queueServer alice).matchmaking.Nodup :=
  ⟨(queue_no_duplicates).1 queueServer alice "gW" (by decide),
   (queue_no_duplicates).2.1 demoServer carol "g1" "g2" rfl,
   (queue_no_duplicates).2.2.2.1 ["a"] ["c"] "c" (by decide),
   (queue_no_duplicates).2.2.2.2.1 ["a"] "z" (by decide),
   (queue_no_duplicates).2.2.2.2.2.1 queueServer bob "g9" (by decide),
   (queue_no_duplicates).2.2.2.2.2.2 queueServer alice (by decide)⟩
